import Mathlib

/-!
Verification of the sqlmock driver mock (connection.go, statement.go,
transaction code, expectations) against its natural-language specification.

The Go code is embedded shallowly: the mutable `mockConn` becomes explicit
state passing (each driver operation returns the updated connection next to
its results), `driver.Value` becomes an inductive `Value` recording the data
the reflect-based matcher inspects, Go `error` results become an inductive
`MockError` whose constructors carry exactly the data interpolated into the
corresponding `fmt.Errorf` call sites, and a recovered panic becomes an
explicit `panicked` outcome constructor.
-/

namespace Sqlmock

/-- Opaque stand-in for a user-supplied Go `error` value attached to an
expectation via `WillReturnError`; the code only stores and returns it. -/
abbrev ErrVal := Nat

/-- Opaque stand-in for a `driver.Result` payload (`WillReturnResult`);
the code only stores and returns it. -/
abbrev SqlResult := Nat

/-- Opaque stand-in for a `driver.Rows` payload (`WillReturnRows`);
the code only stores and returns it. -/
abbrev SqlRows := Nat

/-- A `driver.Value` as seen by the reflect-based argument matcher in
`argsMatches` (statement.go).  The matcher switches on `reflect.Kind` classes;
we record, per value, exactly what it can observe:
the signed-integer kinds `Int..Int64` collapse to `int` (the matcher reads
them only through `reflect.Value.Int`, an `int64`), likewise `uint` and
`float` (floats are modelled as exact rationals; the claims exercise no
NaN or signed-zero corner), `str` is the `String` kind, and `other` is any
remaining kind (`Bool`, `Struct` for `time.Time`, `Slice`, `Invalid` for a
nil value, ...), carrying its `reflect.Kind` as a code, its type name (used
by the `reflect.Value.String` placeholder rendering), and its content, which
the matcher never reads.  `tyName` of an invalid value is `"invalid"`, so the
placeholder rendering below also covers `reflect.Value.String` on an invalid
value. -/
inductive Value where
  | int (tyName : String) (v : Int)
  | uint (tyName : String) (v : Nat)
  | float (tyName : String) (v : Rat)
  | str (v : String)
  | other (kindCode : Nat) (tyName : String) (content : Nat)
deriving DecidableEq, Repr

/-- The `reflect.Kind` of a value, as compared by the default branch of
`argsMatches` (`vi.Kind() != ai.Kind()`).  The four specially-handled classes
get codes 0-3; a kind of an `other` value is `kindCode + 4`, disjoint from
every specially-handled class, which is faithful because the default branch
only ever compares the kind of an `other` actual value, and no `other` kind
equals a signed-integer, unsigned-integer, float or string kind. -/
def reflectKind : Value → Nat
  | .int _ _ => 0
  | .uint _ _ => 1
  | .float _ _ => 2
  | .str _ => 3
  | .other k _ _ => k + 4

/-- Semantics of Go `reflect.Value.String()`: unlike the other getters it
never panics; on a non-string value it returns the placeholder
`"<T Value>"` where `T` is the dynamic type (for an invalid value, with
`tyName = "invalid"`, this is `"<invalid Value>"`). -/
def reflectString : Value → String
  | .str s => s
  | .int ty _ => "<" ++ ty ++ " Value>"
  | .uint ty _ => "<" ++ ty ++ " Value>"
  | .float ty _ => "<" ++ ty ++ " Value>"
  | .other _ ty _ => "<" ++ ty ++ " Value>"

/-- One iteration of the comparison loop of `argsMatches` (statement.go):
`v` is the actual argument (`vi`), `a` the expected one (`ai`).  The switch
is on the actual kind; `ai.Int()`, `ai.Uint()` and `ai.Float()` panic with a
`reflect.ValueError` when the expected value is not of the corresponding
class (`.error`, the message standing in for the `ValueError` text), while
`ai.String()` never panics and falls back to the placeholder rendering. -/
def compareValue (v a : Value) : Except String Bool :=
  match v with
  | .int _ vi =>
    match a with
    | .int _ ai => .ok (vi == ai)
    | _ => .error "reflect: call of reflect.Value.Int on mismatched Value"
  | .uint _ vu =>
    match a with
    | .uint _ au => .ok (vu == au)
    | _ => .error "reflect: call of reflect.Value.Uint on mismatched Value"
  | .float _ vf =>
    match a with
    | .float _ af => .ok (vf == af)
    | _ => .error "reflect: call of reflect.Value.Float on mismatched Value"
  | .str vs => .ok (vs == reflectString a)
  | .other k _ _ => .ok (k + 4 == reflectKind a)

/-- The `for k, v := range args` loop of `argsMatches`, run on the actual
arguments zipped with the expected ones (the caller has already checked the
lengths agree): the first failing comparison returns `false`, a panic aborts
the loop. -/
def compareLoop : List (Value × Value) → Except String Bool
  | [] => .ok true
  | (v, a) :: rest =>
    match compareValue v a with
    | .error s => .error s
    | .ok false => .ok false
    | .ok true => compareLoop rest

/-- A compiled regular expression as the dispatch code observes it: its
source text (`sqlRegex.String()`) and its `MatchString` behaviour.  The Go
regexp engine is standard-library code outside this repository, so it is
kept opaque as a function. -/
structure Regexp where
  src : String
  matchString : String → Bool

/-- Fields shared by Exec and Query expectations (statement.go,
`argExpectation`): the query pattern and the optional expected arguments
(`nil` expected arguments mean any actual arguments are accepted). -/
structure argExpectation where
  sqlRegex : Regexp
  args : Option (List Value)

/-- Translation of `argExpectation.argsMatches` (statement.go): nil expected
arguments match anything; a length mismatch is a plain no-match; otherwise
run the pairwise comparison loop, whose panics surface as `.error`. -/
def argExpectation.argsMatches (e : argExpectation) (args : List Value) :
    Except String Bool :=
  match e.args with
  | none => .ok true
  | some eargs =>
    if args.length != eargs.length then .ok false
    else compareLoop (args.zip eargs)

/-- Translation of `argExpectation.queryMatches` (statement.go). -/
def argExpectation.queryMatches (e : argExpectation) (sql : String) : Bool :=
  e.sqlRegex.matchString sql

example :
    argExpectation.argsMatches ⟨⟨"", fun _ => true⟩, some [.int "int64" 5]⟩
      [.int "int" 5] = .ok true := rfl

example :
    argExpectation.argsMatches ⟨⟨"", fun _ => true⟩, some [.float "float64" 5]⟩
      [.int "int64" 5] =
    .error "reflect: call of reflect.Value.Int on mismatched Value" := rfl

example :
    argExpectation.argsMatches ⟨⟨"", fun _ => true⟩, some [.int "int64" 5]⟩
      [.str "<int64 Value>"] = .ok true := rfl

example :
    argExpectation.argsMatches ⟨⟨"", fun _ => true⟩,
        some [.other 21 "time.Time" 17]⟩
      [.other 21 "time.Time" 99] = .ok true := rfl

/-- The pointwise matching relation exactly as the specification claim about
the argument matcher states it, written for comparison with the implemented
matcher: an actual of signed-integer, unsigned-integer, floating-point or
string class equals the expected value by value comparison (which requires
the expected value to be of the same class), and an actual of any other
class matches whenever the expected value has the same coarse type category,
regardless of content. -/
def specValueMatch (expected actual : Value) : Bool :=
  match actual with
  | .int _ v =>
    match expected with
    | .int _ a => v == a
    | _ => false
  | .uint _ v =>
    match expected with
    | .uint _ a => v == a
    | _ => false
  | .float _ v =>
    match expected with
    | .float _ a => v == a
    | _ => false
  | .str v =>
    match expected with
    | .str a => v == a
    | _ => false
  | .other k _ _ =>
    match expected with
    | .other ak _ _ => k == ak
    | _ => false

/-- The whole-list matching relation as the specification claim states it:
an absent expected list is a wildcard, otherwise the lengths agree and every
position matches per `specValueMatch`. -/
def specArgsMatch (expectedArgs : Option (List Value))
    (actual : List Value) : Bool :=
  match expectedArgs with
  | none => true
  | some ea =>
    actual.length == ea.length &&
      (actual.zip ea).all fun p => specValueMatch p.2 p.1

/-- The pointwise relation the implemented matcher actually decides on its
non-panicking executions.  It differs from `specValueMatch` in the string
clause alone: a string actual is compared against the reflect string
rendering of the expected value, which is the expected string itself when
the expected value is a string and the placeholder naming the expected type
otherwise. -/
def looseValueMatch (expected actual : Value) : Bool :=
  match actual with
  | .int _ v =>
    match expected with
    | .int _ a => v == a
    | _ => false
  | .uint _ v =>
    match expected with
    | .uint _ a => v == a
    | _ => false
  | .float _ v =>
    match expected with
    | .float _ a => v == a
    | _ => false
  | .str v => v == reflectString expected
  | .other k _ _ =>
    match expected with
    | .other ak _ _ => k == ak
    | _ => false

/-- The declared kind of an expectation, i.e. the concrete Go type a
dispatch function asserts with `e.(*ExpectedXxx)`. -/
inductive ExpKind where
  | beginK
  | commitK
  | rollbackK
  | prepareK
  | execK
  | queryK
deriving DecidableEq, Repr

/-- Kind-specific payload of an expectation: `ExpectedBegin`, `ExpectedCommit`,
`ExpectedRollback` and `ExpectedPrepare` carry nothing beyond the common
fields; `ExpectedExec` and `ExpectedQuery` embed an `argExpectation` and
their programmed success payload (`result` resp. `rows`), `none` when the
test author never set it. -/
inductive ExpData where
  | beginD
  | commitD
  | rollbackD
  | prepareD
  | execD (argExp : argExpectation) (result : Option SqlResult)
  | queryD (argExp : argExpectation) (rows : Option SqlRows)

/-- An expectation (statement.go): the `commonExpectation` fields
(`triggered`, the planned `err`) plus the kind-specific data. -/
structure Expectation where
  triggered : Bool
  err : Option ErrVal
  data : ExpData

/-- Translation of `commonExpectation.fulfilled` (statement.go). -/
def Expectation.fulfilled (e : Expectation) : Bool := e.triggered

def ExpData.kind : ExpData → ExpKind
  | .beginD => .beginK
  | .commitD => .commitK
  | .rollbackD => .rollbackK
  | .prepareD => .prepareK
  | .execD _ _ => .execK
  | .queryD _ _ => .queryK

def Expectation.kind (e : Expectation) : ExpKind := e.data.kind

/-- A Go error returned by the mock.  `planned` wraps a user-supplied error
returned verbatim; every other constructor stands for one `fmt.Errorf` call
site in the code and carries exactly the data interpolated into its format
string. -/
inductive MockError where
  | planned (e : ErrVal)
  | remainingExpectation (kind : ExpKind)
  | beginNotExpected
  | beginWrongKind (nextKind : ExpKind)
  | commitNotExpected
  | commitWrongKind (nextKind : ExpKind)
  | rollbackNotExpected
  | rollbackWrongKind (nextKind : ExpKind)
  | execNotExpected (query : String) (args : List Value)
  | execWrongKind (query : String) (args : List Value) (nextKind : ExpKind)
  | execResultMissing (query : String) (args : List Value)
  | execQueryMismatch (query : String) (pattern : String)
  | execArgsMismatch (query : String) (args : List Value)
      (expected : Option (List Value))
  | queryNotExpected (query : String) (args : List Value)
  | queryWrongKind (query : String) (args : List Value) (nextKind : ExpKind)
  | queryRowsMissing (query : String) (args : List Value)
  | queryQueryMismatch (query : String) (pattern : String)
  | queryArgsMismatch (query : String) (args : List Value)
      (expected : Option (List Value))
  | argCompareFailed (ve : String)
deriving DecidableEq

/-- Whitespace as collapsed by the SQL normalization. -/
def isWs (c : Char) : Bool :=
  c == ' ' || c == '\t' || c == '\n' || c == '\x0d'

/-- Splits a character list into its maximal whitespace-free words;
`acc` holds the characters of the current word, reversed. -/
def splitWords : List Char → List Char → List (List Char)
  | [], acc => if acc.isEmpty then [] else [acc.reverse]
  | c :: rest, acc =>
    if isWs c then
      if acc.isEmpty then splitWords rest []
      else acc.reverse :: splitWords rest []
    else splitWords rest (c :: acc)

/-- Joins words back with single spaces. -/
def joinWords : List (List Char) → List Char
  | [] => []
  | [w] => w
  | w :: rest => w ++ ' ' :: joinWords rest

/-- Modelled from the spec: `stripQuery` (called throughout connection.go but
defined in a utility file absent from src).  Spec, SQL normalization:
collapse interior whitespace runs to single spaces and trim leading and
trailing whitespace.  Implemented on the character list so that it evaluates
under kernel reduction. -/
def stripQuery (query : String) : String :=
  ⟨joinWords (splitWords query.data [])⟩

example : stripQuery "  SELECT  *\n FROM t " = "SELECT * FROM t" := by decide

/-- Translation of `mockConn` (connection.go): the expectation ledger and the
`active` expectation (written by the declaration API and by `Close`, never
read by dispatch). -/
structure mockConn where
  expectations : List Expectation
  active : Option Expectation

/-- Translation of `mockConn.next` (connection.go): the first expectation in
declaration order whose `fulfilled()` is false, none when all are fulfilled
or the ledger is empty. -/
def mockConn.next (c : mockConn) : Option Expectation :=
  c.expectations.find? fun e => !e.fulfilled

/-- The ledger after `e.triggered = true` was assigned through the pointer
returned by `next()`: the first unfulfilled expectation, if any, is replaced
by its triggered copy. -/
def triggerFirst : List Expectation → List Expectation
  | [] => []
  | e :: rest =>
    if e.fulfilled then e :: triggerFirst rest
    else { e with triggered := true } :: rest

/-- The connection after the expectation returned by `next()` was marked
triggered. -/
def mockConn.triggerNext (c : mockConn) : mockConn :=
  { c with expectations := triggerFirst c.expectations }

/-- Modelled from the spec: `allFulfilled()` of the Expectation Ledger
(section 4.1, absent from src): true iff every stored expectation has
`fulfilled == true`. -/
def mockConn.allFulfilled (c : mockConn) : Bool :=
  c.expectations.all fun e => e.fulfilled

/-- The error scan of `mockConn.Close` (connection.go): the loop body
overwrites `err` and breaks at the first unfulfilled expectation, naming its
concrete type (`%T`), i.e. its kind. -/
def closeScan : List Expectation → Option MockError
  | [] => none
  | e :: rest =>
    if e.fulfilled then closeScan rest
    else some (.remainingExpectation e.kind)

/-- Translation of `mockConn.Close` (connection.go): report the first
unfulfilled expectation, then unconditionally set `c.expectations = nil` and
`c.active = nil`. -/
def mockConn.Close (c : mockConn) : mockConn × Option MockError :=
  (⟨[], none⟩, closeScan c.expectations)

/-- The transaction handle (`&transaction{c}`).  In Go it holds a pointer to
the owning `mockConn`; with explicit state passing that back-reference is the
connection argument of `transaction.Commit` and `transaction.Rollback`, so
the handle itself carries no data. -/
structure transaction where

/-- The prepared statement handle (`&statement{c, stripQuery(query)}`).  The
`mockConn` back-reference is, as for `transaction`, the explicitly passed
state; the handle keeps the normalized query text. -/
structure statement where
  query : String
deriving DecidableEq

/-- Translation of `mockConn.Begin` (connection.go).  Results are
`(updated connection, transaction handle or nil, error or nil)`; note the
code returns a non-nil handle together with the planned error. -/
def mockConn.Begin (c : mockConn) :
    mockConn × Option transaction × Option MockError :=
  match c.next with
  | none => (c, none, some .beginNotExpected)
  | some e =>
    match e.data with
    | .beginD => (c.triggerNext, some ⟨⟩, e.err.map .planned)
    | _ => (c, none, some (.beginWrongKind e.kind))

/-- Translation of `transaction.Commit` (transaction code). -/
def transaction.Commit (c : mockConn) : mockConn × Option MockError :=
  match c.next with
  | none => (c, some .commitNotExpected)
  | some e =>
    match e.data with
    | .commitD => (c.triggerNext, e.err.map .planned)
    | _ => (c, some (.commitWrongKind e.kind))

/-- Translation of `transaction.Rollback` (transaction code). -/
def transaction.Rollback (c : mockConn) : mockConn × Option MockError :=
  match c.next with
  | none => (c, some .rollbackNotExpected)
  | some e =>
    match e.data with
    | .rollbackD => (c.triggerNext, e.err.map .planned)
    | _ => (c, some (.rollbackWrongKind e.kind))

/-- Translation of `mockConn.Prepare` (connection.go): when there is no
pending expectation, or the pending expectation is not an `ExpectedPrepare`,
Prepare silently succeeds with a bare statement handle and consumes nothing
(backwards-compatibility exemption); otherwise it consumes the expectation
and honours a planned error. -/
def mockConn.Prepare (c : mockConn) (query : String) :
    mockConn × Option statement × Option MockError :=
  match c.next with
  | none => (c, some ⟨stripQuery query⟩, none)
  | some e =>
    match e.data with
    | .prepareD =>
      match e.err with
      | some pe => (c.triggerNext, none, some (.planned pe))
      | none => (c.triggerNext, some ⟨stripQuery query⟩, none)
    | _ => (c, some ⟨stripQuery query⟩, none)

/-- Raw outcome of the body of `mockConn.Exec` or `mockConn.Query` before the
deferred `argMatcherErrorHandler` runs: either a normal return, or a panic
carrying the `reflect.ValueError` text, together with the connection state at
that point (the expectation was already marked triggered before the
pattern and argument checks that can panic). -/
inductive RawOutcome (α : Type) where
  | ret (c : mockConn) (payload : Option α) (err : Option MockError)
  | panicked (c : mockConn) (ve : String)

/-- Translation of the body of `mockConn.Exec` (connection.go), panics left
uncaught: kind mismatch and missing expectation leave the ledger untouched;
on a kind match the expectation is marked triggered first, then in order the
planned error, the missing `result` payload, the query pattern and the
arguments are checked. -/
def mockConn.execBody (c : mockConn) (query : String) (args : List Value) :
    RawOutcome SqlResult :=
  let q := stripQuery query
  match c.next with
  | none => .ret c none (some (.execNotExpected q args))
  | some e =>
    match e.data with
    | .execD argExp result =>
      let c1 := c.triggerNext
      match e.err with
      | some pe => .ret c1 none (some (.planned pe))
      | none =>
        match result with
        | none => .ret c1 none (some (.execResultMissing q args))
        | some r =>
          if !argExp.queryMatches q then
            .ret c1 none (some (.execQueryMismatch q argExp.sqlRegex.src))
          else
            match argExp.argsMatches args with
            | .error ve => .panicked c1 ve
            | .ok false =>
              .ret c1 none (some (.execArgsMismatch q args argExp.args))
            | .ok true => .ret c1 (some r) none
    | _ => .ret c none (some (.execWrongKind q args e.kind))

/-- Translation of the body of `mockConn.Query` (connection.go); identical
shape to `execBody` with `rows` as the payload. -/
def mockConn.queryBody (c : mockConn) (query : String) (args : List Value) :
    RawOutcome SqlRows :=
  let q := stripQuery query
  match c.next with
  | none => .ret c none (some (.queryNotExpected q args))
  | some e =>
    match e.data with
    | .queryD argExp rows =>
      let c1 := c.triggerNext
      match e.err with
      | some pe => .ret c1 none (some (.planned pe))
      | none =>
        match rows with
        | none => .ret c1 none (some (.queryRowsMissing q args))
        | some r =>
          if !argExp.queryMatches q then
            .ret c1 none (some (.queryQueryMismatch q argExp.sqlRegex.src))
          else
            match argExp.argsMatches args with
            | .error ve => .panicked c1 ve
            | .ok false =>
              .ret c1 none (some (.queryArgsMismatch q args argExp.args))
            | .ok true => .ret c1 (some r) none
    | _ => .ret c none (some (.queryWrongKind q args e.kind))

/-- Translation of `argMatcherErrorHandler` (connection.go), the deferred
recover in `Exec` and `Query`: a recovered `reflect.ValueError` is turned
into the error return `Failed to compare query arguments: ...`, with the
payload left at its zero value. -/
def argMatcherErrorHandler {α : Type} (outcome : RawOutcome α) :
    mockConn × Option α × Option MockError :=
  match outcome with
  | .ret c payload err => (c, payload, err)
  | .panicked c ve => (c, none, some (.argCompareFailed ve))

/-- Translation of `mockConn.Exec` (connection.go) as observed by a caller:
the body with its deferred panic handler. -/
def mockConn.Exec (c : mockConn) (query : String) (args : List Value) :
    mockConn × Option SqlResult × Option MockError :=
  argMatcherErrorHandler (c.execBody query args)

/-- Translation of `mockConn.Query` (connection.go) as observed by a caller. -/
def mockConn.Query (c : mockConn) (query : String) (args : List Value) :
    mockConn × Option SqlRows × Option MockError :=
  argMatcherErrorHandler (c.queryBody query args)

/-- Translation of `statement.Exec` (statement.go): forwards to the owning
connection with the stored normalized query text. -/
def statement.Exec (stmt : statement) (c : mockConn) (args : List Value) :
    mockConn × Option SqlResult × Option MockError :=
  c.Exec stmt.query args

/-- Translation of `statement.Query` (statement.go). -/
def statement.Query (stmt : statement) (c : mockConn) (args : List Value) :
    mockConn × Option SqlRows × Option MockError :=
  c.Query stmt.query args

/-- A driver-level operation dispatched against the connection, used to
quantify over the operations of the state machine. -/
inductive DbOp where
  | beginOp
  | commitOp
  | rollbackOp
  | prepareOp (query : String)
  | execOp (query : String) (args : List Value)
  | queryOp (query : String) (args : List Value)

/-- The expectation kind an operation consumes. -/
def DbOp.kind : DbOp → ExpKind
  | .beginOp => .beginK
  | .commitOp => .commitK
  | .rollbackOp => .rollbackK
  | .prepareOp _ => .prepareK
  | .execOp _ _ => .execK
  | .queryOp _ _ => .queryK

/-- The connection state after dispatching one operation, discarding the
returned payloads. -/
def applyOp (c : mockConn) : DbOp → mockConn
  | .beginOp => c.Begin.1
  | .commitOp => (transaction.Commit c).1
  | .rollbackOp => (transaction.Rollback c).1
  | .prepareOp q => (c.Prepare q).1
  | .execOp q args => (c.Exec q args).1
  | .queryOp q args => (c.Query q args).1

/-- The connection state after a whole sequence of dispatched operations. -/
def runOps (c : mockConn) (ops : List DbOp) : mockConn :=
  ops.foldl applyOp c

/-! Concrete fixtures used by the closed witness theorems. -/

/-- A connection with no declared expectations. -/
def emptyConn : mockConn := ⟨[], none⟩

/-- A connection whose Begin expectation is already fulfilled and whose
Commit expectation is still pending. -/
def beginThenCommitConn : mockConn :=
  ⟨[⟨true, none, .beginD⟩, ⟨false, none, .commitD⟩], none⟩

/-- A connection with a single pending Begin expectation. -/
def pendingBeginConn : mockConn := ⟨[⟨false, none, .beginD⟩], none⟩

/-- A connection with a single pending Commit expectation. -/
def pendingCommitConn : mockConn := ⟨[⟨false, none, .commitD⟩], none⟩

/-- A connection with a single pending Query expectation that programmed a
row set, mirroring the spec scenario of a declared but never dispatched
`ExpectQuery`. -/
def pendingQueryConn : mockConn :=
  ⟨[⟨false, none,
      .queryD ⟨⟨"SELECT (.+) FROM articles", fun _ => true⟩, none⟩ (some 3)⟩],
    none⟩

/-- An Exec expectation matching the literal normalized text SELECT 1 with a
single expected int argument 5. -/
def execExpect : argExpectation :=
  ⟨⟨"SELECT 1", fun s => s == "SELECT 1"⟩, some [.int "int64" 5]⟩

/-- A connection with a single pending Exec expectation programmed with
result 7. -/
def execConn : mockConn := ⟨[⟨false, none, .execD execExpect (some 7)⟩], none⟩

/-- An Exec expectation whose expected argument is the float 5.5, so that
comparing it against an int actual argument panics inside reflect, mirroring
the repository test TestArgumentReflectValueTypeError. -/
def floatArgExpect : argExpectation :=
  ⟨⟨"SELECT", fun _ => true⟩, some [.float "float64" (11 / 2)]⟩

/-- A connection with a single pending Exec expectation carrying
`floatArgExpect`. -/
def floatArgConn : mockConn :=
  ⟨[⟨false, none, .execD floatArgExpect (some 1)⟩], none⟩

/-! Helper lemmas about the ledger scan and the in-place trigger update. -/

theorem find_unfulfilled_none_iff (l : List Expectation) :
    (l.find? fun e => !e.fulfilled) = none ↔ ∀ e ∈ l, e.fulfilled = true := by
  induction l with
  | nil => simp
  | cons a l ih =>
    cases ha : a.fulfilled with
    | false => simp [List.find?_cons, ha]
    | true => simp [List.find?_cons, ha, ih]

theorem triggerFirst_cons_pos (a : Expectation) (l : List Expectation)
    (ha : a.fulfilled = true) : triggerFirst (a :: l) = a :: triggerFirst l := by
  conv_lhs => rw [triggerFirst]
  rw [if_pos ha]

theorem triggerFirst_cons_neg (a : Expectation) (l : List Expectation)
    (ha : a.fulfilled = false) :
    triggerFirst (a :: l) = { a with triggered := true } :: l := by
  conv_lhs => rw [triggerFirst]
  rw [if_neg (by simp [ha])]

theorem find_unfulfilled_some_spec (l : List Expectation) (e : Expectation)
    (h : (l.find? fun x => !x.fulfilled) = some e) :
    ∃ i, l.get? i = some e ∧ e.fulfilled = false ∧
      (∀ j, j < i → ∀ ej, l.get? j = some ej → ej.fulfilled = true) ∧
      triggerFirst l = l.set i { e with triggered := true } := by
  induction l with
  | nil => simp at h
  | cons a l ih =>
    cases ha : a.fulfilled with
    | false =>
      rw [List.find?_cons] at h
      simp [ha] at h
      refine ⟨0, ?_, ?_, ?_, ?_⟩
      · rw [h]; rfl
      · rw [← h]; exact ha
      · intro j hj; omega
      · rw [triggerFirst_cons_neg a l ha, ← h]; rfl
    | true =>
      rw [List.find?_cons] at h
      simp [ha] at h
      obtain ⟨i, hget, hful, hprev, htf⟩ := ih h
      refine ⟨i + 1, hget, hful, ?_, ?_⟩
      · intro j hj ej hej
        cases j with
        | zero =>
          cases hej
          exact ha
        | succ k => exact hprev k (Nat.lt_of_succ_lt_succ hj) ej hej
      · rw [triggerFirst_cons_pos a l ha, htf]; rfl

theorem find_unfulfilled_of_first (l : List Expectation) (i : Nat)
    (e : Expectation) (hget : l.get? i = some e) (hful : e.fulfilled = false)
    (hprev : ∀ j, j < i → ∀ ej, l.get? j = some ej → ej.fulfilled = true) :
    (l.find? fun x => !x.fulfilled) = some e := by
  induction l generalizing i with
  | nil => simp at hget
  | cons a l ih =>
    cases i with
    | zero =>
      cases hget
      rw [List.find?_cons]
      simp [hful]
    | succ k =>
      have ha : a.fulfilled = true := hprev 0 (Nat.succ_pos k) a rfl
      rw [List.find?_cons]
      simp only [ha]
      simpa using ih k hget
        fun j hj ej hej => hprev (j + 1) (Nat.succ_lt_succ hj) ej hej

theorem triggerFirst_length (l : List Expectation) :
    (triggerFirst l).length = l.length := by
  induction l with
  | nil => rfl
  | cons a l ih =>
    cases ha : a.fulfilled with
    | false => rw [triggerFirst_cons_neg a l ha]; rfl
    | true => rw [triggerFirst_cons_pos a l ha]; simpa using ih

theorem triggerFirst_get? (l : List Expectation) (i : Nat) :
    (triggerFirst l).get? i = l.get? i ∨
      (∃ e, l.get? i = some e ∧ e.fulfilled = false ∧
        (l.find? fun x => !x.fulfilled) = some e ∧
        (triggerFirst l).get? i = some { e with triggered := true }) := by
  induction l generalizing i with
  | nil => left; rfl
  | cons a l ih =>
    cases ha : a.fulfilled with
    | false =>
      rw [triggerFirst_cons_neg a l ha]
      cases i with
      | zero =>
        right
        exact ⟨a, rfl, ha, by simp [List.find?_cons, ha], rfl⟩
      | succ k => left; rfl
    | true =>
      rw [triggerFirst_cons_pos a l ha]
      cases i with
      | zero => left; rfl
      | succ k =>
        rcases ih k with heq | ⟨e, hget, hful, hfind, hgets⟩
        · left; exact heq
        · right
          refine ⟨e, hget, hful, ?_, hgets⟩
          rw [List.find?_cons]
          simpa [ha] using hfind

theorem closeScan_none_iff (l : List Expectation) :
    closeScan l = none ↔ ∀ e ∈ l, e.fulfilled = true := by
  induction l with
  | nil => simp [closeScan]
  | cons a l ih =>
    cases ha : a.fulfilled with
    | false => simp [closeScan, ha]
    | true => simp [closeScan, ha, ih]

theorem closeScan_spec (l : List Expectation) :
    closeScan l = (l.find? fun x => !x.fulfilled).map
      fun e => MockError.remainingExpectation e.kind := by
  induction l with
  | nil => rfl
  | cons a l ih =>
    cases ha : a.fulfilled <;> simp [closeScan, List.find?_cons, ha, ih]

theorem get?_set_self {α : Type} (l : List α) (i : Nat) (a : α)
    (h : i < l.length) : (l.set i a).get? i = some a := by
  induction l generalizing i with
  | nil => simp at h
  | cons b l ih =>
    cases i with
    | zero => rfl
    | succ k => exact ih k (by simpa using h)

/-! Dispatch-level lemmas: what each operation does to the connection state,
according to whether the pending expectation exists and matches the kind. -/

theorem applyOp_next_none (c : mockConn) (op : DbOp) (h : c.next = none) :
    applyOp c op = c := by
  cases op <;>
    simp [applyOp, mockConn.Begin, transaction.Commit, transaction.Rollback,
      mockConn.Prepare, mockConn.Exec, mockConn.Query, mockConn.execBody,
      mockConn.queryBody, argMatcherErrorHandler, h]

theorem applyOp_wrong_kind (c : mockConn) (op : DbOp) (e : Expectation)
    (h : c.next = some e) (hk : e.kind ≠ op.kind) : applyOp c op = c := by
  cases op <;> cases hd : e.data <;>
    first
      | exact absurd (congrArg ExpData.kind hd) hk
      | simp [applyOp, mockConn.Begin, transaction.Commit,
          transaction.Rollback, mockConn.Prepare, mockConn.Exec,
          mockConn.Query, mockConn.execBody, mockConn.queryBody,
          argMatcherErrorHandler, h, hd]

/-- The connection state carried by a raw outcome. -/
def RawOutcome.state {α : Type} : RawOutcome α → mockConn
  | .ret c _ _ => c
  | .panicked c _ => c

theorem argMatcherErrorHandler_fst {α : Type} (o : RawOutcome α) :
    (argMatcherErrorHandler o).1 = o.state := by
  cases o <;> rfl

theorem execBody_state_kind_match (c : mockConn) (q : String)
    (args : List Value) (e : Expectation) (argExp : argExpectation)
    (result : Option SqlResult) (h : c.next = some e)
    (hd : e.data = .execD argExp result) :
    (c.execBody q args).state = c.triggerNext := by
  simp only [mockConn.execBody, h, hd]
  cases e.err with
  | some pe => rfl
  | none =>
    cases result with
    | none => rfl
    | some r =>
      by_cases hq : argExp.queryMatches (stripQuery q)
      · simp only [hq]
        cases hm : argExp.argsMatches args with
        | error ve => simp [hm, RawOutcome.state]
        | ok b => cases b <;> simp [hm, RawOutcome.state]
      · simp [hq, RawOutcome.state]

theorem queryBody_state_kind_match (c : mockConn) (q : String)
    (args : List Value) (e : Expectation) (argExp : argExpectation)
    (rows : Option SqlRows) (h : c.next = some e)
    (hd : e.data = .queryD argExp rows) :
    (c.queryBody q args).state = c.triggerNext := by
  simp only [mockConn.queryBody, h, hd]
  cases e.err with
  | some pe => rfl
  | none =>
    cases rows with
    | none => rfl
    | some r =>
      by_cases hq : argExp.queryMatches (stripQuery q)
      · simp only [hq]
        cases hm : argExp.argsMatches args with
        | error ve => simp [hm, RawOutcome.state]
        | ok b => cases b <;> simp [hm, RawOutcome.state]
      · simp [hq, RawOutcome.state]

theorem applyOp_kind_match (c : mockConn) (op : DbOp) (e : Expectation)
    (h : c.next = some e) (hk : e.kind = op.kind) :
    applyOp c op = c.triggerNext := by
  cases op with
  | beginOp =>
    cases hd : e.data <;>
      try exact ExpKind.noConfusion ((congrArg ExpData.kind hd).symm.trans hk)
    cases he : e.err <;> simp [applyOp, mockConn.Begin, h, hd, he]
  | commitOp =>
    cases hd : e.data <;>
      try exact ExpKind.noConfusion ((congrArg ExpData.kind hd).symm.trans hk)
    cases he : e.err <;> simp [applyOp, transaction.Commit, h, hd, he]
  | rollbackOp =>
    cases hd : e.data <;>
      try exact ExpKind.noConfusion ((congrArg ExpData.kind hd).symm.trans hk)
    cases he : e.err <;> simp [applyOp, transaction.Rollback, h, hd, he]
  | prepareOp q =>
    cases hd : e.data <;>
      try exact ExpKind.noConfusion ((congrArg ExpData.kind hd).symm.trans hk)
    cases he : e.err <;> simp [applyOp, mockConn.Prepare, h, hd, he]
  | execOp q args =>
    cases hd : e.data <;>
      try exact ExpKind.noConfusion ((congrArg ExpData.kind hd).symm.trans hk)
    rename_i argExp result
    show (c.Exec q args).1 = c.triggerNext
    rw [mockConn.Exec, argMatcherErrorHandler_fst]
    exact execBody_state_kind_match c q args e argExp result h hd
  | queryOp q args =>
    cases hd : e.data <;>
      try exact ExpKind.noConfusion ((congrArg ExpData.kind hd).symm.trans hk)
    rename_i argExp rows
    show (c.Query q args).1 = c.triggerNext
    rw [mockConn.Query, argMatcherErrorHandler_fst]
    exact queryBody_state_kind_match c q args e argExp rows h hd

theorem applyOp_cases (c : mockConn) (op : DbOp) :
    applyOp c op = c ∨
      ∃ e, c.next = some e ∧ e.kind = op.kind ∧
        applyOp c op = c.triggerNext := by
  cases h : c.next with
  | none => exact Or.inl (applyOp_next_none c op h)
  | some e =>
    by_cases hk : e.kind = op.kind
    · exact Or.inr ⟨e, rfl, hk, applyOp_kind_match c op e h hk⟩
    · exact Or.inl (applyOp_wrong_kind c op e h hk)

theorem get?_some_lt {α : Type} (l : List α) (i : Nat) (a : α)
    (h : l.get? i = some a) : i < l.length := by
  induction l generalizing i with
  | nil => simp at h
  | cons b l ih =>
    cases i with
    | zero => exact Nat.succ_pos _
    | succ k => exact Nat.succ_lt_succ (ih k h)

theorem applyOp_length (c : mockConn) (op : DbOp) :
    (applyOp c op).expectations.length = c.expectations.length := by
  rcases applyOp_cases c op with h | ⟨e, _, _, h⟩ <;> rw [h]
  exact triggerFirst_length c.expectations

theorem applyOp_mono (c : mockConn) (op : DbOp) (i : Nat) (e : Expectation)
    (hget : c.expectations.get? i = some e) (hful : e.fulfilled = true) :
    ∃ e2, (applyOp c op).expectations.get? i = some e2 ∧
      e2.fulfilled = true := by
  rcases applyOp_cases c op with h | ⟨e1, _, _, h⟩ <;> rw [h]
  · exact ⟨e, hget, hful⟩
  · rcases triggerFirst_get? c.expectations i with heq | ⟨e2, _, _, _, hgets⟩
    · exact ⟨e, heq.trans hget, hful⟩
    · exact ⟨{ e2 with triggered := true }, hgets, rfl⟩

/-! The claims. -/

/-- C1: for every ledger, `next()` returns the first expectation in
declaration order whose fulfilled flag is false, and returns none exactly
when the ledger is empty or every expectation is fulfilled; hence an
expectation later in the sequence is never dispatched before all earlier
ones are fulfilled. -/
theorem next_returns_first_unfulfilled (c : mockConn) :
    (c.next = none ↔ ∀ e ∈ c.expectations, e.fulfilled = true) ∧
    ∀ e, c.next = some e →
      ∃ i, c.expectations.get? i = some e ∧ e.fulfilled = false ∧
        ∀ j, j < i → ∀ ej, c.expectations.get? j = some ej →
          ej.fulfilled = true := by
  constructor
  · exact find_unfulfilled_none_iff c.expectations
  · intro e he
    obtain ⟨i, hget, hful, hprev, _⟩ :=
      find_unfulfilled_some_spec c.expectations e he
    exact ⟨i, hget, hful, hprev⟩

theorem next_returns_first_unfulfilled_witness :
    ∃ i, beginThenCommitConn.expectations.get? i =
        some ⟨false, none, .commitD⟩ ∧
      (⟨false, none, .commitD⟩ : Expectation).fulfilled = false ∧
      ∀ j, j < i →
        ∀ ej, beginThenCommitConn.expectations.get? j = some ej →
          ej.fulfilled = true :=
  (next_returns_first_unfulfilled beginThenCommitConn).2
    ⟨false, none, .commitD⟩ rfl

/-- C4: for every ledger state, `Close` returns an error naming the first
expectation whose fulfilled flag is false when one exists and nil otherwise,
and in both cases it clears the ledger and the active state
unconditionally. -/
theorem Close_reports_first_unfulfilled_and_clears (c : mockConn) :
    (c.Close.1.expectations = [] ∧ c.Close.1.active = none) ∧
    (c.Close.2 = none ↔ ∀ e ∈ c.expectations, e.fulfilled = true) ∧
    ∀ i e, c.expectations.get? i = some e → e.fulfilled = false →
      (∀ j, j < i → ∀ ej, c.expectations.get? j = some ej →
        ej.fulfilled = true) →
      c.Close.2 = some (.remainingExpectation e.kind) := by
  refine ⟨⟨rfl, rfl⟩, ?_, ?_⟩
  · show closeScan c.expectations = none ↔ _
    exact closeScan_none_iff c.expectations
  · intro i e hget hful hprev
    show closeScan c.expectations = _
    rw [closeScan_spec, find_unfulfilled_of_first c.expectations i e hget
      hful hprev]
    rfl

theorem Close_reports_first_unfulfilled_and_clears_witness :
    pendingQueryConn.Close.2 =
      some (.remainingExpectation ExpKind.queryK) ∧
    pendingQueryConn.Close.1.expectations = [] :=
  ⟨(Close_reports_first_unfulfilled_and_clears pendingQueryConn).2.2 0
      ⟨false, none,
        .queryD ⟨⟨"SELECT (.+) FROM articles", fun _ => true⟩, none⟩ (some 3)⟩
      rfl rfl (fun j hj _ _ => absurd hj (Nat.not_lt_zero j)),
    (Close_reports_first_unfulfilled_and_clears pendingQueryConn).1.1⟩

/-- C5 counterexample: with a single pending Begin expectation, Close fails,
yet the all-fulfilled check evaluated on the connection after the failed
Close differs from its value before, because Close cleared the ledger and
the check is vacuously true on an empty ledger; so the claim that a failed
Close leaves the all-fulfilled check unchanged is false of the code. -/
theorem close_allFulfilled_counterexample :
    pendingBeginConn.Close.2 ≠ none ∧
    mockConn.allFulfilled pendingBeginConn.Close.1 = true ∧
    pendingBeginConn.allFulfilled = false := by
  refine ⟨?_, rfl, rfl⟩
  intro h
  simp [pendingBeginConn, mockConn.Close, closeScan,
    Expectation.fulfilled] at h

/-- C5 amended: Close never sets a fulfilled flag; its error outcome is
computed purely from the pre-Close flags (it fails exactly when some
expectation was genuinely unfulfilled before the call), but because Close
unconditionally clears the ledger, the all-fulfilled check evaluated on the
connection after any Close, including a failed one, is vacuously true rather
than equal to its pre-Close value. -/
theorem close_error_reflects_preclose_flags (c : mockConn) :
    mockConn.allFulfilled c.Close.1 = true ∧
    (c.Close.2 = none ↔ c.allFulfilled = true) := by
  refine ⟨rfl, ?_⟩
  show closeScan c.expectations = none ↔ _
  rw [closeScan_none_iff, mockConn.allFulfilled]
  simp

theorem close_error_reflects_preclose_flags_witness :
    mockConn.allFulfilled pendingCommitConn.Close.1 = true ∧
    (pendingCommitConn.Close.2 = none ↔
      pendingCommitConn.allFulfilled = true) :=
  close_error_reflects_preclose_flags pendingCommitConn

/-- C9: every Begin, Commit, Rollback, Exec or Query call issued when
`next()` returns none fails with an error stating the operation was not
expected and carrying the attempted operation data, and no success payload
is produced. -/
theorem unexpected_operation_fails (c : mockConn) (q : String)
    (args : List Value) (h : c.next = none) :
    c.Begin = (c, none, some .beginNotExpected) ∧
    transaction.Commit c = (c, some .commitNotExpected) ∧
    transaction.Rollback c = (c, some .rollbackNotExpected) ∧
    c.Exec q args = (c, none, some (.execNotExpected (stripQuery q) args)) ∧
    c.Query q args =
      (c, none, some (.queryNotExpected (stripQuery q) args)) := by
  refine ⟨?_, ?_, ?_, ?_, ?_⟩ <;>
    simp [mockConn.Begin, transaction.Commit, transaction.Rollback,
      mockConn.Exec, mockConn.Query, mockConn.execBody, mockConn.queryBody,
      argMatcherErrorHandler, h]

theorem unexpected_operation_fails_witness :
    emptyConn.Begin = (emptyConn, none, some .beginNotExpected) ∧
    emptyConn.Exec "INSERT INTO t VALUES (1)" [] =
      (emptyConn, none,
        some (.execNotExpected (stripQuery "INSERT INTO t VALUES (1)") [])) :=
  ⟨(unexpected_operation_fails emptyConn "INSERT INTO t VALUES (1)" []
      rfl).1,
    (unexpected_operation_fails emptyConn "INSERT INTO t VALUES (1)" []
      rfl).2.2.2.1⟩

/-- C3: a Prepare call whose pending expectation is missing or is not of
Prepare kind succeeds with a statement handle carrying the normalized query
text (the connection binding being the state itself), leaving the connection,
hence every fulfilled flag, unchanged; Exec and Query do not enjoy this
exemption and fail with no success payload when no expectation is pending. -/
theorem prepare_backcompat_exemption (c : mockConn) (q : String)
    (args : List Value) :
    ((c.next = none ∨ ∃ e, c.next = some e ∧ e.kind ≠ ExpKind.prepareK) →
      c.Prepare q = (c, some ⟨stripQuery q⟩, none)) ∧
    (c.next = none →
      (c.Exec q args).2.1 = none ∧
      (c.Exec q args).2.2 = some (.execNotExpected (stripQuery q) args) ∧
      (c.Query q args).2.1 = none ∧
      (c.Query q args).2.2 =
        some (.queryNotExpected (stripQuery q) args)) := by
  constructor
  · rintro (h | ⟨e, he, hk⟩)
    · simp [mockConn.Prepare, h]
    · cases hd : e.data <;>
        first
          | exact absurd (congrArg ExpData.kind hd) hk
          | simp [mockConn.Prepare, he, hd]
  · intro h
    refine ⟨?_, ?_, ?_, ?_⟩ <;>
      simp [mockConn.Exec, mockConn.Query, mockConn.execBody,
        mockConn.queryBody, argMatcherErrorHandler, h]

theorem prepare_backcompat_exemption_witness :
    emptyConn.Prepare "SELECT  a FROM t" =
      (emptyConn, some ⟨stripQuery "SELECT  a FROM t"⟩, none) ∧
    (emptyConn.Exec "SELECT  a FROM t" []).2.1 = none :=
  ⟨(prepare_backcompat_exemption emptyConn "SELECT  a FROM t" []).1
      (Or.inl rfl),
    ((prepare_backcompat_exemption emptyConn "SELECT  a FROM t" []).2
      rfl).1⟩

/-- C7: across every dispatched operation the ledger keeps its length; an
entry either is unchanged in every field or is the kind-matched expectation
returned by `next()`, previously unfulfilled, rewritten with only its
triggered flag set; the pending expectation of matching kind is always
marked fulfilled, planned error or not; and across any sequence of
operations a fulfilled flag never reverts to false. -/
theorem fulfilled_is_only_mutation (c : mockConn) :
    (∀ op : DbOp,
      (applyOp c op).expectations.length = c.expectations.length ∧
      (∀ i, (applyOp c op).expectations.get? i = c.expectations.get? i ∨
        ∃ e, c.expectations.get? i = some e ∧ e.fulfilled = false ∧
          c.next = some e ∧ e.kind = op.kind ∧
          (applyOp c op).expectations.get? i =
            some { e with triggered := true }) ∧
      (∀ e, c.next = some e → e.kind = op.kind →
        ∃ i, c.expectations.get? i = some e ∧
          (applyOp c op).expectations.get? i =
            some { e with triggered := true })) ∧
    (∀ ops : List DbOp, ∀ i e, c.expectations.get? i = some e →
      e.fulfilled = true →
      ∃ e2, (runOps c ops).expectations.get? i = some e2 ∧
        e2.fulfilled = true) := by
  constructor
  · intro op
    refine ⟨applyOp_length c op, ?_, ?_⟩
    · intro i
      rcases applyOp_cases c op with h | ⟨e, hnext, hk, h⟩ <;> rw [h]
      · left; rfl
      · rcases triggerFirst_get? c.expectations i with
          heq | ⟨e2, hget2, hful2, hfind2, hgets2⟩
        · left; exact heq
        · right
          have he2 : e2 = e := Option.some.inj (hfind2.symm.trans hnext)
          subst he2
          exact ⟨e2, hget2, hful2, hnext, hk, hgets2⟩
    · intro e hnext hk
      rw [applyOp_kind_match c op e hnext hk]
      obtain ⟨i, hget, _, _, htf⟩ :=
        find_unfulfilled_some_spec c.expectations e hnext
      refine ⟨i, hget, ?_⟩
      show (triggerFirst c.expectations).get? i = _
      rw [htf]
      exact get?_set_self c.expectations i _ (get?_some_lt _ i e hget)
  · intro ops
    induction ops generalizing c with
    | nil => exact fun i e hget hful => ⟨e, hget, hful⟩
    | cons op ops ih =>
      intro i e hget hful
      obtain ⟨e2, hget2, hful2⟩ := applyOp_mono c op i e hget hful
      exact ih (applyOp c op) i e2 hget2 hful2

theorem fulfilled_is_only_mutation_witness :
    ∃ i, pendingBeginConn.expectations.get? i =
        some ⟨false, none, .beginD⟩ ∧
      (applyOp pendingBeginConn .beginOp).expectations.get? i =
        some { (⟨false, none, .beginD⟩ : Expectation) with
          triggered := true } :=
  ((fulfilled_is_only_mutation pendingBeginConn).1 DbOp.beginOp).2.2
    ⟨false, none, .beginD⟩ rfl rfl

/-- C10: a Begin, Commit, Rollback, Exec or Query call that fails because
the pending expectation has a different declared kind leaves the connection,
hence the ledger and every fulfilled flag, unchanged, so `next()` returns the
same pending expectation afterwards and a later call of the matching kind
still fulfills it. -/
theorem wrong_kind_preserves_state (c : mockConn) (op : DbOp)
    (e : Expectation) (_hop : op.kind ≠ ExpKind.prepareK)
    (hnext : c.next = some e) (hk : e.kind ≠ op.kind) :
    applyOp c op = c ∧ (applyOp c op).next = c.next ∧
    ∀ op2 : DbOp, op2.kind = e.kind →
      ∃ i, c.expectations.get? i = some e ∧
        (applyOp (applyOp c op) op2).expectations.get? i =
          some { e with triggered := true } := by
  have hfr := applyOp_wrong_kind c op e hnext hk
  refine ⟨hfr, by rw [hfr], ?_⟩
  intro op2 hk2
  rw [hfr, applyOp_kind_match c op2 e hnext hk2.symm]
  obtain ⟨i, hget, _, _, htf⟩ :=
    find_unfulfilled_some_spec c.expectations e hnext
  refine ⟨i, hget, ?_⟩
  show (triggerFirst c.expectations).get? i = _
  rw [htf]
  exact get?_set_self c.expectations i _ (get?_some_lt _ i e hget)

/-- C2: when the pending expectation is of the matching kind, Exec and Query
mark it fulfilled before any further check, so it is consumed even when a
later check fails; then in order: a planned error is returned if set; a
missing programmed payload yields a configuration error; a failed SQL
pattern check yields an error naming the normalized query and the pattern
source; a failed argument check yields an error naming both argument lists;
and the programmed payload is returned exactly when both checks pass. -/
theorem exec_query_dispatch_order (c : mockConn) (q : String)
    (args : List Value) :
    (∀ e argExp result, c.next = some e → e.data = .execD argExp result →
      (c.Exec q args).1 = c.triggerNext ∧
      (∃ i, c.expectations.get? i = some e ∧
        (c.Exec q args).1.expectations.get? i =
          some { e with triggered := true }) ∧
      (∀ pe, e.err = some pe →
        (c.Exec q args).2 = (none, some (.planned pe))) ∧
      (e.err = none → result = none →
        (c.Exec q args).2 =
          (none, some (.execResultMissing (stripQuery q) args))) ∧
      (∀ r, e.err = none → result = some r →
        argExp.queryMatches (stripQuery q) = false →
        (c.Exec q args).2 =
          (none,
            some (.execQueryMismatch (stripQuery q) argExp.sqlRegex.src))) ∧
      (∀ r, e.err = none → result = some r →
        argExp.queryMatches (stripQuery q) = true →
        argExp.argsMatches args = .ok false →
        (c.Exec q args).2 =
          (none,
            some (.execArgsMismatch (stripQuery q) args argExp.args))) ∧
      (∀ r, (c.Exec q args).2.1 = some r ↔
        e.err = none ∧ result = some r ∧
          argExp.queryMatches (stripQuery q) = true ∧
          argExp.argsMatches args = .ok true)) ∧
    (∀ e argExp rows, c.next = some e → e.data = .queryD argExp rows →
      (c.Query q args).1 = c.triggerNext ∧
      (∃ i, c.expectations.get? i = some e ∧
        (c.Query q args).1.expectations.get? i =
          some { e with triggered := true }) ∧
      (∀ pe, e.err = some pe →
        (c.Query q args).2 = (none, some (.planned pe))) ∧
      (e.err = none → rows = none →
        (c.Query q args).2 =
          (none, some (.queryRowsMissing (stripQuery q) args))) ∧
      (∀ r, e.err = none → rows = some r →
        argExp.queryMatches (stripQuery q) = false →
        (c.Query q args).2 =
          (none,
            some (.queryQueryMismatch (stripQuery q)
              argExp.sqlRegex.src))) ∧
      (∀ r, e.err = none → rows = some r →
        argExp.queryMatches (stripQuery q) = true →
        argExp.argsMatches args = .ok false →
        (c.Query q args).2 =
          (none,
            some (.queryArgsMismatch (stripQuery q) args argExp.args))) ∧
      (∀ r, (c.Query q args).2.1 = some r ↔
        e.err = none ∧ rows = some r ∧
          argExp.queryMatches (stripQuery q) = true ∧
          argExp.argsMatches args = .ok true)) := by
  constructor
  · intro e argExp result hnext hd
    have hstate : (c.Exec q args).1 = c.triggerNext := by
      rw [mockConn.Exec, argMatcherErrorHandler_fst]
      exact execBody_state_kind_match c q args e argExp result hnext hd
    refine ⟨hstate, ?_, ?_, ?_, ?_, ?_, ?_⟩
    · obtain ⟨i, hget, _, _, htf⟩ :=
        find_unfulfilled_some_spec c.expectations e hnext
      refine ⟨i, hget, ?_⟩
      rw [hstate]
      show (triggerFirst c.expectations).get? i = _
      rw [htf]
      exact get?_set_self c.expectations i _ (get?_some_lt _ i e hget)
    · intro pe hpe
      simp [mockConn.Exec, mockConn.execBody, hnext, hd, hpe,
        argMatcherErrorHandler]
    · intro herr hres
      simp [mockConn.Exec, mockConn.execBody, hnext, hd, herr, hres,
        argMatcherErrorHandler]
    · intro r herr hres hq
      simp [mockConn.Exec, mockConn.execBody, hnext, hd, herr, hres, hq,
        argMatcherErrorHandler]
    · intro r herr hres hq hm
      simp [mockConn.Exec, mockConn.execBody, hnext, hd, herr, hres, hq,
        hm, argMatcherErrorHandler]
    · intro r
      cases herr : e.err with
      | some pe =>
        simp [mockConn.Exec, mockConn.execBody, hnext, hd, herr,
          argMatcherErrorHandler]
      | none =>
        cases hres : result with
        | none =>
          simp [mockConn.Exec, mockConn.execBody, hnext, hd, herr, hres,
            argMatcherErrorHandler]
        | some r2 =>
          by_cases hq : argExp.queryMatches (stripQuery q)
          · rcases hm : argExp.argsMatches args with ve | b
            · simp [mockConn.Exec, mockConn.execBody, hnext, hd, herr,
                hres, hq, hm, argMatcherErrorHandler]
            · cases b <;>
                simp [mockConn.Exec, mockConn.execBody, hnext, hd, herr,
                  hres, hq, hm, argMatcherErrorHandler]
          · simp [mockConn.Exec, mockConn.execBody, hnext, hd, herr, hres,
              hq, argMatcherErrorHandler]
  · intro e argExp rows hnext hd
    have hstate : (c.Query q args).1 = c.triggerNext := by
      rw [mockConn.Query, argMatcherErrorHandler_fst]
      exact queryBody_state_kind_match c q args e argExp rows hnext hd
    refine ⟨hstate, ?_, ?_, ?_, ?_, ?_, ?_⟩
    · obtain ⟨i, hget, _, _, htf⟩ :=
        find_unfulfilled_some_spec c.expectations e hnext
      refine ⟨i, hget, ?_⟩
      rw [hstate]
      show (triggerFirst c.expectations).get? i = _
      rw [htf]
      exact get?_set_self c.expectations i _ (get?_some_lt _ i e hget)
    · intro pe hpe
      simp [mockConn.Query, mockConn.queryBody, hnext, hd, hpe,
        argMatcherErrorHandler]
    · intro herr hres
      simp [mockConn.Query, mockConn.queryBody, hnext, hd, herr, hres,
        argMatcherErrorHandler]
    · intro r herr hres hq
      simp [mockConn.Query, mockConn.queryBody, hnext, hd, herr, hres, hq,
        argMatcherErrorHandler]
    · intro r herr hres hq hm
      simp [mockConn.Query, mockConn.queryBody, hnext, hd, herr, hres, hq,
        hm, argMatcherErrorHandler]
    · intro r
      cases herr : e.err with
      | some pe =>
        simp [mockConn.Query, mockConn.queryBody, hnext, hd, herr,
          argMatcherErrorHandler]
      | none =>
        cases hres : rows with
        | none =>
          simp [mockConn.Query, mockConn.queryBody, hnext, hd, herr, hres,
            argMatcherErrorHandler]
        | some r2 =>
          by_cases hq : argExp.queryMatches (stripQuery q)
          · rcases hm : argExp.argsMatches args with ve | b
            · simp [mockConn.Query, mockConn.queryBody, hnext, hd, herr,
                hres, hq, hm, argMatcherErrorHandler]
            · cases b <;>
                simp [mockConn.Query, mockConn.queryBody, hnext, hd, herr,
                  hres, hq, hm, argMatcherErrorHandler]
          · simp [mockConn.Query, mockConn.queryBody, hnext, hd, herr,
              hres, hq, argMatcherErrorHandler]

theorem exec_query_dispatch_order_witness :
    (execConn.Exec "SELECT  1" [.int "int64" 5]).2.1 = some 7 :=
  (((exec_query_dispatch_order execConn "SELECT  1"
        [.int "int64" 5]).1
      ⟨false, none, .execD execExpect (some 7)⟩ execExpect (some 7)
      rfl rfl).2.2.2.2.2.2 7).mpr
    ⟨rfl, rfl, by decide, rfl⟩

theorem compareValue_ok_true_iff (v a : Value) :
    compareValue v a = .ok true ↔ looseValueMatch a v = true := by
  cases v <;> cases a <;>
    simp [compareValue, looseValueMatch, reflectString, reflectKind]

theorem compareLoop_ok_true_iff (ps : List (Value × Value)) :
    compareLoop ps = .ok true ↔
      ∀ p ∈ ps, looseValueMatch p.2 p.1 = true := by
  induction ps with
  | nil => simp [compareLoop]
  | cons p ps ih =>
    obtain ⟨v, a⟩ := p
    rcases hcv : compareValue v a with ve | b
    · simp only [compareLoop, hcv]
      constructor
      · intro h
        exact absurd h (by simp)
      · intro h
        exact absurd ((compareValue_ok_true_iff v a).mpr
          (h (v, a) (List.mem_cons_self _ _))) (by simp [hcv])
    · cases b
      · simp only [compareLoop, hcv]
        constructor
        · intro h
          exact absurd h (by simp)
        · intro h
          exact absurd ((compareValue_ok_true_iff v a).mpr
            (h (v, a) (List.mem_cons_self _ _))) (by simp [hcv])
      · simp only [compareLoop, hcv]
        rw [ih]
        constructor
        · intro h q hq
          rcases List.mem_cons.mp hq with rfl | hq2
          · exact (compareValue_ok_true_iff v a).mp hcv
          · exact h q hq2
        · intro h q hq
          exact h q (List.mem_cons_of_mem _ hq)

/-- C6 counterexample: the matcher accepts the actual string
`<int64 Value>` against the expected int 5, because reflect Value.String
renders a non-string expected value as that placeholder, whereas the claim
as stated requires a string actual to equal a string expected by value; so
the claimed characterization of the matcher is false at this input. -/
theorem argsMatches_spec_counterexample :
    argExpectation.argsMatches
        ⟨⟨"p", fun _ => true⟩, some [.int "int64" 5]⟩
        [.str "<int64 Value>"] = .ok true ∧
    specArgsMatch (some [.int "int64" 5]) [.str "<int64 Value>"] = false :=
  ⟨rfl, rfl⟩

/-- C6 amended: the matcher matches, meaning it returns true rather than
false or a recovered reflect panic, iff the expected list is absent, or the
lists have equal length and every position matches pointwise per the claim
with the string clause corrected: a string actual matches iff it equals the
reflect string rendering of the expected value (the expected string itself
when the expected value is of string class, the placeholder naming the
expected type otherwise); numeric classes compare by value, and every other
class, temporal values included, matches exactly the expected values of the
same coarse type category regardless of content. -/
theorem argsMatches_characterization (e : argExpectation)
    (args : List Value) :
    e.argsMatches args = .ok true ↔
      (e.args = none ∨ ∃ ea, e.args = some ea ∧
        args.length = ea.length ∧
        ∀ p ∈ args.zip ea, looseValueMatch p.2 p.1 = true) := by
  cases he : e.args with
  | none => simp [argExpectation.argsMatches, he]
  | some ea =>
    have hrhs : (some ea = none ∨ ∃ ea2, some ea = some ea2 ∧
        args.length = ea2.length ∧
        ∀ p ∈ args.zip ea2, looseValueMatch p.2 p.1 = true) ↔
        (args.length = ea.length ∧
          ∀ p ∈ args.zip ea, looseValueMatch p.2 p.1 = true) := by
      simp
    rw [hrhs]
    simp only [argExpectation.argsMatches, he]
    by_cases hl : args.length = ea.length
    · rw [if_neg (by simp [hl]), compareLoop_ok_true_iff]
      simp [hl]
    · rw [if_pos (by simp [hl])]
      constructor
      · intro h
        exact absurd h (by simp)
      · rintro ⟨hl2, _⟩
        exact absurd hl2 hl

theorem argsMatches_characterization_witness :
    argExpectation.argsMatches
        ⟨⟨"q", fun _ => true⟩,
          some [.other 21 "time.Time" 17, .int "int64" 5]⟩
        [.other 21 "time.Time" 99, .int "int" 5] = .ok true :=
  (argsMatches_characterization
      ⟨⟨"q", fun _ => true⟩,
        some [.other 21 "time.Time" 17, .int "int64" 5]⟩
      [.other 21 "time.Time" 99, .int "int" 5]).mpr
    (Or.inr ⟨[.other 21 "time.Time" 17, .int "int64" 5], rfl, rfl,
      by decide⟩)

/-- C8: a reflect ValueError panic raised inside the pattern and argument
comparison phase of Exec or Query is recovered by the deferred handler and
converted into an ordinary error return describing the failed argument
comparison, with no success payload, instead of propagating out of the
call as a crash. -/
theorem reflect_panic_recovered (c : mockConn) (q : String)
    (args : List Value) :
    (∀ c1 ve, c.execBody q args = .panicked c1 ve →
      c.Exec q args = (c1, none, some (.argCompareFailed ve))) ∧
    (∀ c1 ve, c.queryBody q args = .panicked c1 ve →
      c.Query q args = (c1, none, some (.argCompareFailed ve))) := by
  constructor <;> intro c1 ve h <;>
    simp [mockConn.Exec, mockConn.Query, argMatcherErrorHandler, h]

theorem reflect_panic_recovered_witness :
    floatArgConn.Exec "SELECT x" [.int "int64" 5] =
      (floatArgConn.triggerNext, none,
        some (.argCompareFailed
          "reflect: call of reflect.Value.Int on mismatched Value")) :=
  (reflect_panic_recovered floatArgConn "SELECT x" [.int "int64" 5]).1
    floatArgConn.triggerNext
    "reflect: call of reflect.Value.Int on mismatched Value" rfl

theorem wrong_kind_preserves_state_witness :
    applyOp pendingCommitConn .beginOp = pendingCommitConn ∧
    (applyOp pendingCommitConn .beginOp).next = pendingCommitConn.next ∧
    ∀ op2 : DbOp, op2.kind = (⟨false, none, .commitD⟩ : Expectation).kind →
      ∃ i, pendingCommitConn.expectations.get? i =
          some ⟨false, none, .commitD⟩ ∧
        (applyOp (applyOp pendingCommitConn .beginOp) op2).expectations.get?
            i =
          some { (⟨false, none, .commitD⟩ : Expectation) with
            triggered := true } :=
  wrong_kind_preserves_state pendingCommitConn .beginOp
    ⟨false, none, .commitD⟩ (by decide) rfl (by decide)

end Sqlmock
